import Mathlib

/-!
Verification development for the kubefed version-tracking and
status-reconciliation core (mesosphere/kubefed).

The Go source is shallowly embedded:
* `map[string]string` values are association lists (`VersionMap`) with Go map
  semantics: lookup finds the entry for a key, insertion replaces an existing
  entry.  Go maps never hold duplicate keys, so theorems that need it carry a
  `Nodup` hypothesis on the key list.
* fallible Go functions return `Except String`.
* the network client of `writeVersion` is an oracle environment supplying the
  outcome of each API call; the status controller's caches are likewise
  oracle environments.
-/

/-- An association-list embedding of Go's `map[string]string`. -/
abbrev VersionMap := List (String × String)

/-- Go map read `m[k]`: the value stored for `k`, if any. -/
def lookupVM (m : VersionMap) (k : String) : Option String :=
  (m.find? (fun p => p.1 == k)).map Prod.snd

/-- Go map write `m[k] = v`: replace the entry for `k` if present, else append. -/
def insertVM : VersionMap → String → String → VersionMap
  | [], k, v => [(k, v)]
  | p :: rest, k, v => if p.1 == k then (k, v) :: rest else p :: insertVM rest k v

/-- `fedv1a1.ClusterObjectVersion`: one (cluster name, version) pair of a
propagated-version record. -/
structure ClusterObjectVersion where
  clusterName : String
  version : String
deriving DecidableEq, Repr

/-- Read the version recorded for cluster `c` in a cluster-version list. -/
def lookupCV (l : List ClusterObjectVersion) (c : String) : Option String :=
  (l.find? (fun cv => cv.clusterName == c)).map ClusterObjectVersion.version

/-- The empty-string-as-deletion rule applied to an optional version: the
value survives only if present and non-empty. -/
def dropEmpty : Option String → Option String
  | some v => if v = "" then none else some v
  | none => none

/-- Lexicographic order on character lists: the order Go's `<`/`<=` on strings
computes (bytewise lexicographic comparison). -/
def charListLe : List Char → List Char → Bool
  | [], _ => true
  | _ :: _, [] => false
  | a :: as, b :: bs => if a < b then true else if b < a then false else charListLe as bs

/-- Lexicographic string comparison, Go's `a <= b` on strings. -/
def strLe (a b : String) : Bool := charListLe a.data b.data

/-- Modelled from the spec: `util.SortClusterVersions` (not under src/) sorts a
cluster-version list ascending by cluster name ("ordered-by-cluster-name list",
"cluster-version lists must be sorted before comparison for determinism"). -/
def SortClusterVersions (l : List ClusterObjectVersion) : List ClusterObjectVersion :=
  l.insertionSort (fun a b => strLe a.clusterName b.clusterName = true)

/-- `fedv1a1.PropagatedVersionStatus`: the status carried by a propagated
version record. -/
structure PropagatedVersionStatus where
  templateVersion : String
  overrideVersion : String
  clusterVersions : List ClusterObjectVersion
deriving DecidableEq, Repr

/-- Modelled from the spec: `util.PropagatedVersionStatusEquivalent` (not under
src/) compares two statuses by "value equality across
Template/Override/ClusterVersions". -/
def PropagatedVersionStatusEquivalent (a b : PropagatedVersionStatus) : Bool :=
  a.templateVersion == b.templateVersion &&
  a.overrideVersion == b.overrideVersion &&
  a.clusterVersions == b.clusterVersions

/-- `util.QualifiedName`: the canonical (namespace, name) identity. -/
structure QualifiedName where
  nspace : String
  name : String
deriving DecidableEq, Repr

/-- Modelled from the spec: `QualifiedName.String` (not under src/) renders as
"namespace/name or just name for cluster-scoped resources". -/
def QualifiedName.render (q : QualifiedName) : String :=
  if q.nspace = "" then q.name else q.nspace ++ "/" ++ q.name

/-- Modelled from the spec: `common.PropagatedVersionName` (not under src/)
derives a version-record name "deterministically from the target kind and
resource name". -/
def PropagatedVersionName (targetKind name : String) : String :=
  targetKind ++ "-" ++ name

/-- `VersionManager.versionQualifiedName`: derive the version record's
qualified name from the federated resource's qualified name. -/
def versionQualifiedName (targetKind : String) (q : QualifiedName) : QualifiedName :=
  { nspace := q.nspace, name := PropagatedVersionName targetKind q.name }

/-- `version.VersionedResource`: what the version manager needs from a
federated resource.  `TemplateVersion`/`OverrideVersion` are resource-supplied
and may fail.  (`Object()` is used only to build an owner reference, which has
no bearing on the claims and is omitted.) -/
structure VersionedResource where
  federatedName : QualifiedName
  templateVersion : Except String String
  overrideVersion : Except String String

/-- The version manager's in-memory cache: the map
`versions map[string]runtimeclient.Object` restricted to what `Get`/`Update`
read and write of each cached object, namely its propagated-version status. -/
abbrev VersionCache := List (String × PropagatedVersionStatus)

/-- Cache read `m.versions[key]`. -/
def lookupCache (m : VersionCache) (k : String) : Option PropagatedVersionStatus :=
  (m.find? (fun p => p.1 == k)).map Prod.snd

/-- Cache write `m.versions[key] = obj` (replace or add). -/
def insertCache : VersionCache → String → PropagatedVersionStatus → VersionCache
  | [], k, s => [(k, s)]
  | p :: rest, k, s => if p.1 == k then (k, s) :: rest else p :: insertCache rest k s

/-- `VersionMapToClusterVersions`: convert a version map to a cluster-version
list, dropping clusters whose version is the empty string ("Lack of version
indicates deletion") and sorting the result. -/
def VersionMapToClusterVersions (versionMap : VersionMap) : List ClusterObjectVersion :=
  SortClusterVersions
    ((versionMap.filter (fun p => p.2 ≠ "")).map
      (fun p => { clusterName := p.1, version := p.2 }))

/-- The mutating loop of `updateClusterVersions`: for each old cluster version
whose cluster is selected and absent from `newVersions`, insert the old version
into `newVersions` (Go mutates the caller's map; here the mutated map is the
result). -/
def mergeOldVersions : List ClusterObjectVersion → VersionMap → List String → VersionMap
  | [], newVersions, _ => newVersions
  | ov :: rest, newVersions, selectedClusters =>
      mergeOldVersions rest
        (if selectedClusters.contains ov.clusterName && (lookupVM newVersions ov.clusterName).isNone
         then newVersions ++ [(ov.clusterName, ov.version)]
         else newVersions)
        selectedClusters

/-- `updateClusterVersions`: retain versions for selected clusters that were
not changed, then convert. -/
def updateClusterVersions (oldVersions : List ClusterObjectVersion)
    (newVersions : VersionMap) (selectedClusters : List String) : List ClusterObjectVersion :=
  VersionMapToClusterVersions (mergeOldVersions oldVersions newVersions selectedClusters)

/-- `VersionManager.Get`: build the cluster-to-version map for a resource from
the cached record, if its template/override versions still match. -/
def VersionManagerGet (targetKind : String) (versions : VersionCache)
    (resource : VersionedResource) : Except String VersionMap :=
  match lookupCache versions (versionQualifiedName targetKind resource.federatedName).render with
  | none => .ok []
  | some status =>
    match resource.templateVersion with
    | .error e => .error ("Failed to determine template version: " ++ e)
    | .ok templateVersion =>
      match resource.overrideVersion with
      | .error e => .error ("Failed to determine override version: " ++ e)
      | .ok overrideVersion =>
        if templateVersion = status.templateVersion ∧ overrideVersion = status.overrideVersion then
          .ok (status.clusterVersions.foldl
            (fun m cv => insertVM m cv.clusterName cv.version) [])
        else
          .ok []

/-- Outcome of `VersionManager.Update`: the cache afterwards, whether a durable
write was initiated (`writeVersion` called), and the caller's version map as Go
left it (the merge loop mutates it in place). -/
structure UpdateResult where
  versions : VersionCache
  wrote : Bool
  versionMapAfter : VersionMap
deriving DecidableEq, Repr

/-- `VersionManager.Update`: merge the new version map into the cached record
and initiate a durable write unless the merged status equals the existing one.
The network outcome of `writeVersion` is external to the cache transition
modelled here. -/
def VersionManagerUpdate (targetKind : String) (versions : VersionCache)
    (resource : VersionedResource) (selectedClusters : List String)
    (versionMap : VersionMap) : Except String UpdateResult :=
  match resource.templateVersion with
  | .error e => .error ("Failed to determine template version: " ++ e)
  | .ok templateVersion =>
    match resource.overrideVersion with
    | .error e => .error ("Failed to determine override version: " ++ e)
    | .ok overrideVersion =>
      let key := (versionQualifiedName targetKind resource.federatedName).render
      match lookupCache versions key with
      | some oldStatus =>
        let oldClusterVersions :=
          if oldStatus.templateVersion = templateVersion ∧
             oldStatus.overrideVersion = overrideVersion then
            oldStatus.clusterVersions
          else []
        let mergedMap := mergeOldVersions oldClusterVersions versionMap selectedClusters
        let status : PropagatedVersionStatus :=
          { templateVersion := templateVersion, overrideVersion := overrideVersion,
            clusterVersions := VersionMapToClusterVersions mergedMap }
        if PropagatedVersionStatusEquivalent oldStatus status then
          .ok { versions := versions, wrote := false, versionMapAfter := mergedMap }
        else
          .ok { versions := insertCache versions key status, wrote := true,
                versionMapAfter := mergedMap }
      | none =>
        let status : PropagatedVersionStatus :=
          { templateVersion := templateVersion, overrideVersion := overrideVersion,
            clusterVersions := VersionMapToClusterVersions versionMap }
        .ok { versions := insertCache versions key status, wrote := true,
              versionMapAfter := versionMap }

/-! ## `VersionManager.writeVersion`: the durable-write protocol

One iteration of the `wait.PollUntilContextTimeout` body is embedded as
`writeVersionStep`, driven by an oracle `StepEnv` giving the outcome of each
API call the iteration may make.  The surrounding poll loop is
`writeVersionLoop`, consuming one `StepEnv` per iteration; an exhausted list
models the bounded total duration expiring. -/
/-- The typed error taxonomy of the generic client (`apierrors`). -/
inductive ApiError where
  | conflict
  | notFound
  | alreadyExists
  | forbidden
  | other
deriving DecidableEq, Repr

/-- The loop-carried state of `writeVersion`: the opaque resourceVersion token
(empty string means "create needed") and the `refreshVersion` flag. -/
structure WriteState where
  resourceVersion : String
  refreshVersion : Bool
deriving DecidableEq, Repr

/-- Outcomes of the API calls one poll iteration may make.  A successful
create/update yields the resourceVersion of the stored object. -/
structure StepEnv where
  refreshResult : Except ApiError String
  createResult : Except ApiError String
  updateResult : Except ApiError String
deriving Repr

/-- The API calls an iteration actually performed, in order. -/
inductive Attempt where
  | refreshCall
  | createCall
  | updateCall (resourceVersion : String)
deriving DecidableEq, Repr

/-- Result of one poll iteration: retry with a new state (`return false, nil`),
abort with an error (`return false, err`), or success (`return true, nil`). -/
inductive StepResult where
  | retry (s : WriteState)
  | abort (e : ApiError)
  | done (s : WriteState)
deriving DecidableEq, Repr

/-- The update-status part of the iteration (`client.UpdateStatus` and its
error classification). -/
def writeVersionUpdatePhase (env : StepEnv) (s : WriteState) (acc : List Attempt) :
    StepResult × List Attempt :=
  let acc := acc ++ [Attempt.updateCall s.resourceVersion]
  match env.updateResult with
  | .error .conflict =>
      (.retry { s with refreshVersion := true }, acc)
  | .error .notFound =>
      (.retry { s with resourceVersion := "" }, acc)
  | .error .forbidden => (.abort .forbidden, acc)
  | .error _ => (.retry s, acc)
  | .ok updatedRV => (.done { s with resourceVersion := updatedRV }, acc)

/-- The create part of the iteration (`client.Create` when no token is known,
then fall through to the update). -/
def writeVersionCreatePhase (env : StepEnv) (s : WriteState) (acc : List Attempt) :
    StepResult × List Attempt :=
  if s.resourceVersion = "" then
    match env.createResult with
    | .error .alreadyExists =>
        (.retry { s with refreshVersion := true }, acc ++ [Attempt.createCall])
    | .error .forbidden => (.abort .forbidden, acc ++ [Attempt.createCall])
    | .error _ => (.retry s, acc ++ [Attempt.createCall])
    | .ok createdRV =>
        writeVersionUpdatePhase env { s with resourceVersion := createdRV }
          (acc ++ [Attempt.createCall])
  else
    writeVersionUpdatePhase env s acc

/-- One iteration of `writeVersion`'s poll loop.  When `refreshVersion` is set
the token is first refreshed from the API; a failed refresh leaves the flag set
and, as in the Go multiple-assignment, clears the token. -/
def writeVersionStep (env : StepEnv) (s : WriteState) : StepResult × List Attempt :=
  if s.refreshVersion then
    match env.refreshResult with
    | .error _ =>
        (.retry { resourceVersion := "", refreshVersion := true }, [Attempt.refreshCall])
    | .ok rv =>
        writeVersionCreatePhase env { resourceVersion := rv, refreshVersion := false }
          [Attempt.refreshCall]
  else
    writeVersionCreatePhase env s []

/-- The poll loop of `writeVersion`: run iterations until success, an aborting
error, or the bounded duration (the oracle list) is exhausted.  `.error none`
models the timeout, `.error (some e)` an aborting API error surfaced to the
caller. -/
def writeVersionLoop : List StepEnv → WriteState →
    Except (Option ApiError) WriteState × List Attempt
  | [], _ => (.error none, [])
  | env :: rest, s =>
    match writeVersionStep env s with
    | (.done s1, a) => (.ok s1, a)
    | (.abort e, a) => (.error (some e), a)
    | (.retry s1, a) =>
        let r := writeVersionLoop rest s1
        (r.1, a ++ r.2)

/-! ## Status controller (`pkg/controller/status/controller.go`)

The informer caches, the generic clients and the ready-cluster snapshot are
oracle environments; the reconcile body is translated branch for branch. -/
/-- `util.ReconciliationStatus`: the four reconciliation outcomes. -/
inductive ReconciliationStatus where
  | allOK
  | needsRecheck
  | notSynced
  | error
deriving DecidableEq, Repr

/-- What `reconcile` does on a given input: return a reconciliation status, or
terminate the process (`klog.Fatalf` exits). -/
inductive ReconcileOutcome where
  | status (s : ReconciliationStatus)
  | processFatal
deriving DecidableEq, Repr

/-- Whether a reconcile outcome is one of the four reconciliation statuses. -/
def ReconcileOutcome.returnsStatus : ReconcileOutcome → Bool
  | .status _ => true
  | .processFatal => false

/-- The opaque `.status` content extracted from a member cluster's target
object (`unstructured.NestedMap`): a generic map of field names to values. -/
abbrev StatusMap := List (String × String)

/-- `util.ResourceClusterStatus`: one cluster's entry in the aggregated
status.  `status = none` embeds Go's nil map. -/
structure ResourceClusterStatus where
  clusterName : String
  status : Option StatusMap
deriving DecidableEq, Repr

/-- Outcome of `informer.GetTargetStore().GetByKey(clusterName, key)` combined
with the `.status` extraction on the found object: the store errored, the
object is absent, the object is present but `.status` is missing or fails to
extract, or `.status` was found. -/
inductive ClusterLookup where
  | storeError
  | absent
  | statusMissing
  | statusFound (st : StatusMap)
deriving DecidableEq, Repr

/-- The entry one cluster contributes: the extracted `.status` map when it was
found, a nil status when the object is absent or extraction failed. -/
def clusterEntry (clusterName : String) (look : ClusterLookup) : ResourceClusterStatus :=
  match look with
  | .statusFound st => { clusterName := clusterName, status := some st }
  | _ => { clusterName := clusterName, status := none }

/-- The accumulation loop of `clusterStatuses`: the first store error aborts
the whole computation; every other cluster contributes one entry in input
order. -/
def clusterStatusesLoop (lookup : String → ClusterLookup) :
    List String → Except String (List ResourceClusterStatus)
  | [] => .ok []
  | c :: rest =>
    if lookup c = .storeError then
      .error ("Failed to get target resource from cluster " ++ c)
    else
      match clusterStatusesLoop lookup rest with
      | .error e => .error e
      | .ok l => .ok (clusterEntry c (lookup c) :: l)

/-- `KubeFedStatusController.clusterStatuses`: one entry per ready cluster
(absent objects and failed extractions contribute a nil status; a store error
aborts), sorted by cluster name. -/
def clusterStatuses (lookup : String → ClusterLookup) (clusterNames : List String) :
    Except String (List ResourceClusterStatus) :=
  match clusterStatusesLoop lookup clusterNames with
  | .error e => .error e
  | .ok l => .ok (l.insertionSort (fun a b => strLe a.clusterName b.clusterName = true))

/-- The federated (template) object fields `reconcile` reads: whether a
deletion timestamp is set, and the identity fields used for the owner
reference. -/
structure FedObject where
  deleting : Bool
  apiVersion : String
  kind : String
  name : String
  uid : String
deriving DecidableEq, Repr

/-- The generic map form of a persisted status object, split into the
`clusterStatus` sub-field that `reconcile` compares and writes
(`none` embeds an absent or nil field) and the remaining top-level fields,
kept as an opaque field bag. -/
structure StatusObject where
  clusterStatus : Option (List ResourceClusterStatus)
  rest : List (String × String)
deriving DecidableEq, Repr

/-- Modelled from the spec: the conversion of the candidate status object to
its generic map form (`util.FederatedResource` and `util.GetUnstructured` are
not under src/).  The spec's persisted status record carries the per-cluster
list and the metadata fields; the computed cluster-status list (always a
non-nil slice) converts to an explicitly present list field. -/
def mkCandidateStatus (qualifiedName : QualifiedName) (fedObject : FedObject)
    (clusterStatus : List ResourceClusterStatus) : StatusObject :=
  { clusterStatus := some clusterStatus,
    rest := [("name", qualifiedName.name), ("namespace", qualifiedName.nspace),
             ("ownerAPIVersion", fedObject.apiVersion), ("ownerKind", fedObject.kind),
             ("ownerName", fedObject.name), ("ownerUID", fedObject.uid)] }

/-- Durable API writes `reconcile` can issue against the status type. -/
inductive WriteOp where
  | create (obj : StatusObject)
  | update (obj : StatusObject)
deriving DecidableEq, Repr

/-- The oracle environment of one `reconcile` invocation: the outcome of the
bounded cache-sync wait, the two host-cluster cache lookups, the ready-cluster
snapshot, the per-cluster target lookups, and whether the create/update API
calls fail. -/
structure ReconcileEnv where
  syncSucceeds : Bool
  fedLookup : Except String (Option FedObject)
  clusterNamesResult : Except String (List String)
  targetLookup : String → ClusterLookup
  statusLookup : Except String (Option StatusObject)
  createFails : Bool
  updateFails : Bool

/-- `KubeFedStatusController.reconcile`, branch for branch: the outcome and
the list of durable writes attempted.  A failed sync wait hits `klog.Fatalf`,
which terminates the process. -/
def reconcile (env : ReconcileEnv) (qualifiedName : QualifiedName) :
    ReconcileOutcome × List WriteOp :=
  if ¬ env.syncSucceeds then (.processFatal, [])
  else
    match env.fedLookup with
    | .error _ => (.status .error, [])
    | .ok none => (.status .allOK, [])
    | .ok (some fedObject) =>
      if fedObject.deleting then (.status .allOK, [])
      else
        match env.clusterNamesResult with
        | .error _ => (.status .notSynced, [])
        | .ok clusterNames =>
          match clusterStatuses env.targetLookup clusterNames with
          | .error _ => (.status .error, [])
          | .ok clusterStatus =>
            match env.statusLookup with
            | .error _ => (.status .error, [])
            | .ok existingStatus =>
              let status := mkCandidateStatus qualifiedName fedObject clusterStatus
              match existingStatus with
              | none =>
                if env.createFails then (.status .needsRecheck, [.create status])
                else (.status .allOK, [.create status])
              | some existing =>
                if existing.clusterStatus = status.clusterStatus then
                  (.status .allOK, [])
                else
                  let newClusterStatus :=
                    match status.clusterStatus with
                    | none => some []
                    | s => s
                  let updated := { existing with clusterStatus := newClusterStatus }
                  if env.updateFails then (.status .needsRecheck, [.update updated])
                  else (.status .allOK, [.update updated])

/-! ## Claim C4 — error and empty-map semantics of `Get` -/
/-- A resource whose template and override version computations fail. -/
def failingResource : VersionedResource :=
  { federatedName := { nspace := "ns", name := "app" },
    templateVersion := .error "boom", overrideVersion := .error "boom" }

/-- A client oracle whose update call reports a conflict. -/
def envConflict : StepEnv :=
  { refreshResult := .ok "2", createResult := .ok "1", updateResult := .error .conflict }

/-- A client oracle whose update call reports not-found. -/
def envNotFound : StepEnv :=
  { refreshResult := .ok "2", createResult := .ok "1", updateResult := .error .notFound }

/-- A client oracle whose create call reports already-exists. -/
def envAlreadyExists : StepEnv :=
  { refreshResult := .ok "2", createResult := .error .alreadyExists, updateResult := .ok "3" }

/-- A client oracle whose create call is forbidden. -/
def envForbiddenCreate : StepEnv :=
  { refreshResult := .ok "2", createResult := .error .forbidden, updateResult := .ok "3" }

/-- A client oracle whose update call is forbidden. -/
def envForbiddenUpdate : StepEnv :=
  { refreshResult := .ok "2", createResult := .ok "1", updateResult := .error .forbidden }

/-- A concrete versioned resource used by the witnesses. -/
def sampleResource : VersionedResource :=
  { federatedName := { nspace := "ns", name := "app" },
    templateVersion := .ok "t1", overrideVersion := .ok "o1" }

/-- The prior cached record used by the merge-law witnesses: both clusters at
version v1. -/
def oldStatusSample : PropagatedVersionStatus :=
  { templateVersion := "t1", overrideVersion := "o1",
    clusterVersions := [{ clusterName := "c1", version := "v1" },
                        { clusterName := "c2", version := "v1" }] }

/-- The member-cluster lookups of the C8 witness: c1's object has
status.phase=Running, c2's object is absent, c3's status extraction fails. -/
def lookupSample : String → ClusterLookup := fun c =>
  if c = "c1" then .statusFound [("phase", "Running")]
  else if c = "c2" then .absent
  else .statusMissing

/-- The member-cluster lookups of the C8 witness error case: c2's store
lookup errors. -/
def lookupErrSample : String → ClusterLookup := fun c =>
  if c = "c2" then .storeError else .absent

/-! ## Claims C6, C7 — reconcile totality and status write minimality -/
/-- The reconcile environment of the C6 counterexample: the bounded cache-sync
wait fails, everything else is healthy. -/
def envSyncFail : ReconcileEnv :=
  { syncSucceeds := false, fedLookup := .ok none, clusterNamesResult := .ok [],
    targetLookup := fun _ => .absent, statusLookup := .ok none,
    createFails := false, updateFails := false }

/-- A healthy environment for the C6 witness. -/
def envSyncOk : ReconcileEnv :=
  { envSyncFail with syncSucceeds := true }

/-- The federated object of the C7 witness. -/
def fedSample : FedObject :=
  { deleting := false, apiVersion := "types.kubefed.io/v1beta1",
    kind := "FederatedDeployment", name := "app", uid := "uid-1" }

/-- The pre-existing persisted status object of the C7 witness; it carries an
extra field that the update must preserve. -/
def existingSample : StatusObject :=
  { clusterStatus := some [{ clusterName := "c1", status := none }],
    rest := [("name", "app"), ("extraField", "preserved")] }

/-- The reconcile environment of the C7 witness. -/
def envReconcile : ReconcileEnv :=
  { syncSucceeds := true, fedLookup := .ok (some fedSample),
    clusterNamesResult := .ok ["c1"],
    targetLookup := fun _ => .statusFound [("phase", "Running")],
    statusLookup := .ok (some existingSample),
    createFails := false, updateFails := false }

/-- The status object the C7 witness expects to be written: the new cluster
status with the existing object's other fields preserved. -/
def writtenStatusSample : StatusObject :=
  { clusterStatus := some [{ clusterName := "c1", status := some [("phase", "Running")] }],
    rest := [("name", "app"), ("extraField", "preserved")] }

/-- The record stored by the first `Update` of the C3 witness. -/
def storedAfterFirstUpdate : VersionCache :=
  [("ns/fdeploy-app",
    { templateVersion := "t1", overrideVersion := "o1",
      clusterVersions := [{ clusterName := "c1", version := "v1" }] })]

/-! ## Order and association-list lemmas -/
theorem charListLe_total : ∀ as bs : List Char, charListLe as bs = true ∨ charListLe bs as = true
  | [], _ => Or.inl rfl
  | _ :: _, [] => Or.inr rfl
  | a :: as, b :: bs => by
    rcases lt_trichotomy a b with h | h | h
    · left; simp [charListLe, h]
    · subst h
      rcases charListLe_total as bs with h1 | h1
      · left; simp [charListLe, lt_irrefl, h1]
      · right; simp [charListLe, lt_irrefl, h1]
    · right; simp [charListLe, h]

theorem charListLe_trans :
    ∀ as bs cs : List Char, charListLe as bs = true → charListLe bs cs = true →
      charListLe as cs = true
  | [], _, _, _, _ => rfl
  | _ :: _, [], _, h1, _ => by simp [charListLe] at h1
  | _ :: _, _ :: _, [], _, h2 => by simp [charListLe] at h2
  | a :: as, b :: bs, c :: cs, h1, h2 => by
    by_cases hab : a < b
    · by_cases hbc : b < c
      · simp [charListLe, lt_trans hab hbc]
      · by_cases hcb : c < b
        · simp [charListLe, hbc, hcb] at h2
        · have hbceq : b = c := le_antisymm (not_lt.mp hcb) (not_lt.mp hbc)
          subst hbceq
          simp [charListLe, hab]
    · by_cases hba : b < a
      · simp [charListLe, hab, hba] at h1
      · have habeq : a = b := le_antisymm (not_lt.mp hba) (not_lt.mp hab)
        subst habeq
        by_cases hbc : a < c
        · simp [charListLe, hbc]
        · by_cases hcb : c < a
          · simp [charListLe, hbc, hcb] at h2
          · simp [charListLe, hab, hba] at h1
            simp [charListLe, hbc, hcb] at h2 ⊢
            exact charListLe_trans as bs cs h1 h2

theorem strLe_total (a b : String) : strLe a b = true ∨ strLe b a = true :=
  charListLe_total a.data b.data

theorem strLe_trans {a b c : String} (h1 : strLe a b = true) (h2 : strLe b c = true) :
    strLe a c = true :=
  charListLe_trans a.data b.data c.data h1 h2

theorem lookupVM_nil (c : String) : lookupVM [] c = none := rfl

theorem lookupVM_cons (p : String × String) (m : VersionMap) (c : String) :
    lookupVM (p :: m) c = if p.1 = c then some p.2 else lookupVM m c := by
  by_cases h : p.1 = c <;> simp [lookupVM, h]

theorem lookupVM_append (m1 m2 : VersionMap) (c : String) :
    lookupVM (m1 ++ m2) c = (lookupVM m1 c).or (lookupVM m2 c) := by
  unfold lookupVM
  rw [List.find?_append]
  cases m1.find? (fun p => p.1 == c) <;> simp

theorem lookupVM_eq_none_iff {m : VersionMap} {c : String} :
    lookupVM m c = none ↔ ∀ p ∈ m, p.1 ≠ c := by
  simp [lookupVM, List.find?_eq_none]

theorem lookupCV_nil (c : String) : lookupCV [] c = none := rfl

theorem lookupCV_cons (cv : ClusterObjectVersion) (l : List ClusterObjectVersion) (c : String) :
    lookupCV (cv :: l) c = if cv.clusterName = c then some cv.version else lookupCV l c := by
  by_cases h : cv.clusterName = c <;> simp [lookupCV, h]

theorem lookupCV_eq_none_iff {l : List ClusterObjectVersion} {c : String} :
    lookupCV l c = none ↔ ∀ cv ∈ l, cv.clusterName ≠ c := by
  simp [lookupCV, List.find?_eq_none]

theorem lookupVM_insertVM (m : VersionMap) (k v c : String) :
    lookupVM (insertVM m k v) c = if c = k then some v else lookupVM m c := by
  induction m with
  | nil =>
    by_cases h : c = k
    · simp [insertVM, lookupVM_cons, h]
    · have hkc : ¬ k = c := fun hk => h hk.symm
      simp [insertVM, lookupVM_cons, hkc, h, lookupVM_nil]
  | cons p rest ih =>
    by_cases hpk : p.1 = k
    · by_cases hck : c = k
      · subst hck
        simp [insertVM, hpk, lookupVM_cons]
      · have hkc : ¬ k = c := fun hk => hck hk.symm
        simp [insertVM, hpk, lookupVM_cons, hkc, hck]
    · by_cases hpc : p.1 = c
      · have hck : ¬ c = k := fun h => hpk (hpc.trans h)
        simp [insertVM, hpk, lookupVM_cons, hpc, hck]
      · simp [insertVM, hpk, lookupVM_cons, hpc, ih]

theorem lookupVM_mergeOldVersions (old : List ClusterObjectVersion) (m : VersionMap)
    (sel : List String) (c : String) :
    lookupVM (mergeOldVersions old m sel) c =
      (lookupVM m c).or (if sel.contains c then lookupCV old c else none) := by
  induction old generalizing m with
  | nil =>
    show lookupVM m c = (lookupVM m c).or (if sel.contains c then lookupCV [] c else none)
    rw [lookupCV_nil, ite_self]
    cases lookupVM m c <;> rfl
  | cons ov rest ih =>
    rw [mergeOldVersions, ih, lookupCV_cons]
    by_cases hc : ov.clusterName = c
    · rw [if_pos hc, hc]
      cases e : lookupVM m c with
      | some w => simp [e]
      | none =>
        cases hsel : sel.contains c with
        | true => simp [lookupVM_append, e, lookupVM_cons, lookupVM_nil]
        | false => simp [e]
    · have hval : lookupVM (if sel.contains ov.clusterName &&
          (lookupVM m ov.clusterName).isNone
          then m ++ [(ov.clusterName, ov.version)] else m) c = lookupVM m c := by
        split
        · rw [lookupVM_append]
          have hone : lookupVM [(ov.clusterName, ov.version)] c = none := by
            rw [lookupVM_cons, if_neg hc, lookupVM_nil]
          rw [hone]
          cases lookupVM m c <;> rfl
        · rfl
      rw [hval, if_neg hc]

theorem mergeOldVersions_keys_nodup (old : List ClusterObjectVersion) (m : VersionMap)
    (sel : List String) (h : (m.map Prod.fst).Nodup) :
    ((mergeOldVersions old m sel).map Prod.fst).Nodup := by
  induction old generalizing m with
  | nil => exact h
  | cons ov rest ih =>
    rw [mergeOldVersions]
    apply ih
    split
    · rename_i hcond
      have hnone : lookupVM m ov.clusterName = none := by
        rcases Bool.and_eq_true_iff.mp hcond with ⟨_, h2⟩
        cases e : lookupVM m ov.clusterName with
        | none => rfl
        | some w => rw [e] at h2; simp at h2
      have hnotmem : ov.clusterName ∉ m.map Prod.fst := by
        intro hmem
        rcases List.mem_map.mp hmem with ⟨p, hp, hfst⟩
        exact (lookupVM_eq_none_iff.mp hnone p hp) hfst
      simpa [List.nodup_append] using And.intro h hnotmem
    · exact h

theorem lookupVM_foldl_insertVM (l : List ClusterObjectVersion) (m0 : VersionMap)
    (h : (l.map ClusterObjectVersion.clusterName).Nodup) (c : String) :
    lookupVM (l.foldl (fun m cv => insertVM m cv.clusterName cv.version) m0) c =
      (lookupCV l c).or (lookupVM m0 c) := by
  induction l generalizing m0 with
  | nil => simp [lookupCV_nil]
  | cons cv rest ih =>
    simp only [List.foldl_cons]
    have hrest : (rest.map ClusterObjectVersion.clusterName).Nodup := by
      simpa using h.of_cons
    rw [ih _ hrest, lookupCV_cons]
    by_cases hc : cv.clusterName = c
    · have hno : lookupCV rest c = none := by
        rw [lookupCV_eq_none_iff]
        intro x hx hxc
        have : cv.clusterName ∈ rest.map ClusterObjectVersion.clusterName :=
          List.mem_map.mpr ⟨x, hx, hxc.trans hc.symm⟩
        exact (List.nodup_cons.mp (by simpa using h)).1 this
      rw [hno, lookupVM_insertVM]
      simp [hc]
    · rw [lookupVM_insertVM]
      have : ¬ c = cv.clusterName := fun hk => hc hk.symm
      simp [this, hc]

theorem lookupCV_eq_some_iff {l : List ClusterObjectVersion}
    (h : (l.map ClusterObjectVersion.clusterName).Nodup) {c v : String} :
    lookupCV l c = some v ↔
      ({ clusterName := c, version := v } : ClusterObjectVersion) ∈ l := by
  induction l with
  | nil => simp [lookupCV_nil]
  | cons cv rest ih =>
    rw [List.map_cons] at h
    have hpair := List.nodup_cons.mp h
    rw [lookupCV_cons]
    by_cases hc : cv.clusterName = c
    · rw [if_pos hc]
      constructor
      · intro h1
        have hv : cv.version = v := by injection h1
        have hcv : ({ clusterName := c, version := v } : ClusterObjectVersion) = cv := by
          cases cv
          simp_all
        rw [hcv]
        exact List.mem_cons_self _ _
      · intro hmem
        rcases List.mem_cons.mp hmem with heq | hmem2
        · rw [← heq]
        · exact absurd (List.mem_map.mpr ⟨_, hmem2, hc.symm ▸ rfl⟩) hpair.1
    · rw [if_neg hc, ih hpair.2]
      constructor
      · exact fun hm => List.mem_cons_of_mem _ hm
      · intro hmem
        rcases List.mem_cons.mp hmem with heq | hm
        · exact absurd ((congrArg ClusterObjectVersion.clusterName heq).symm) hc
        · exact hm

theorem lookupCV_of_perm {l l2 : List ClusterObjectVersion} (hp : l.Perm l2)
    (h : (l.map ClusterObjectVersion.clusterName).Nodup) (c : String) :
    lookupCV l c = lookupCV l2 c := by
  have h2 : (l2.map ClusterObjectVersion.clusterName).Nodup :=
    ((hp.map ClusterObjectVersion.clusterName).nodup_iff).mp h
  cases e : lookupCV l c with
  | some v =>
    exact ((lookupCV_eq_some_iff h2).mpr (hp.mem_iff.mp ((lookupCV_eq_some_iff h).mp e))).symm
  | none =>
    cases e2 : lookupCV l2 c with
    | none => rfl
    | some v =>
      have hmem := (lookupCV_eq_some_iff h).mpr (hp.mem_iff.mpr ((lookupCV_eq_some_iff h2).mp e2))
      rw [e] at hmem
      exact absurd hmem (by simp)

theorem sortClusterVersions_names_nodup {l : List ClusterObjectVersion}
    (h : (l.map ClusterObjectVersion.clusterName).Nodup) :
    ((SortClusterVersions l).map ClusterObjectVersion.clusterName).Nodup :=
  (((List.perm_insertionSort _ l).map ClusterObjectVersion.clusterName).nodup_iff).mpr h

theorem lookupCV_sortClusterVersions (l : List ClusterObjectVersion)
    (h : (l.map ClusterObjectVersion.clusterName).Nodup) (c : String) :
    lookupCV (SortClusterVersions l) c = lookupCV l c :=
  lookupCV_of_perm (List.perm_insertionSort _ l) (sortClusterVersions_names_nodup h) c

theorem filterMap_names_nodup (V : VersionMap) (h : (V.map Prod.fst).Nodup) :
    (((V.filter (fun p => p.2 ≠ "")).map
      (fun p => ({ clusterName := p.1, version := p.2 } : ClusterObjectVersion))).map
        ClusterObjectVersion.clusterName).Nodup := by
  rw [List.map_map]
  exact ((V.filter_sublist (p := fun p => decide (p.2 ≠ ""))).map Prod.fst).nodup h

theorem lookupCV_filterMap (V : VersionMap) (h : (V.map Prod.fst).Nodup) (c : String) :
    lookupCV ((V.filter (fun p => p.2 ≠ "")).map
      (fun p => ({ clusterName := p.1, version := p.2 } : ClusterObjectVersion))) c =
      dropEmpty (lookupVM V c) := by
  induction V with
  | nil => simp [lookupCV_nil, lookupVM_nil, dropEmpty]
  | cons p rest ih =>
    rw [List.map_cons] at h
    have hpair := List.nodup_cons.mp h
    rw [lookupVM_cons]
    by_cases hpc : p.1 = c
    · have hnone : lookupVM rest c = none := by
        rw [lookupVM_eq_none_iff]
        intro q hq hqc
        exact hpair.1 (List.mem_map.mpr ⟨q, hq, hqc.trans hpc.symm⟩)
      by_cases hv : p.2 = ""
      · have hcond : (decide ¬ p.2 = "") = false := by simp [hv]
        rw [List.filter_cons]
        simp only [ne_eq, hcond, Bool.false_eq_true, if_false]
        rw [ih hpair.2, hnone, if_pos hpc, hv]
        rfl
      · have hcond : (decide ¬ p.2 = "") = true := by simp [hv]
        rw [List.filter_cons]
        simp only [ne_eq, hcond, if_true]
        rw [List.map_cons, lookupCV_cons, if_pos hpc, if_pos hpc]
        simp [dropEmpty, hv]
    · by_cases hv : p.2 = ""
      · have hcond : (decide ¬ p.2 = "") = false := by simp [hv]
        rw [List.filter_cons]
        simp only [ne_eq, hcond, Bool.false_eq_true, if_false]
        rw [ih hpair.2, if_neg hpc]
      · have hcond : (decide ¬ p.2 = "") = true := by simp [hv]
        rw [List.filter_cons]
        simp only [ne_eq, hcond, if_true]
        rw [List.map_cons, lookupCV_cons, if_neg hpc, if_neg hpc, ih hpair.2]

theorem versionMapToClusterVersions_names_nodup (V : VersionMap)
    (h : (V.map Prod.fst).Nodup) :
    ((VersionMapToClusterVersions V).map ClusterObjectVersion.clusterName).Nodup :=
  sortClusterVersions_names_nodup (filterMap_names_nodup V h)

theorem lookupCV_versionMapToClusterVersions (V : VersionMap)
    (h : (V.map Prod.fst).Nodup) (c : String) :
    lookupCV (VersionMapToClusterVersions V) c = dropEmpty (lookupVM V c) := by
  rw [VersionMapToClusterVersions, lookupCV_sortClusterVersions _ (filterMap_names_nodup V h),
    lookupCV_filterMap V h c]

theorem lookupCache_nil (k : String) : lookupCache [] k = none := rfl

theorem lookupCache_cons (p : String × PropagatedVersionStatus) (m : VersionCache) (k : String) :
    lookupCache (p :: m) k = if p.1 = k then some p.2 else lookupCache m k := by
  by_cases h : p.1 = k <;> simp [lookupCache, h]

theorem lookupCache_insertCache (m : VersionCache) (k : String)
    (s : PropagatedVersionStatus) (c : String) :
    lookupCache (insertCache m k s) c = if c = k then some s else lookupCache m c := by
  induction m with
  | nil =>
    by_cases h : c = k
    · simp [insertCache, lookupCache_cons, h]
    · have hkc : ¬ k = c := fun hk => h hk.symm
      simp [insertCache, lookupCache_cons, hkc, h, lookupCache_nil]
  | cons p rest ih =>
    by_cases hpk : p.1 = k
    · by_cases hck : c = k
      · subst hck
        simp [insertCache, hpk, lookupCache_cons]
      · have hkc : ¬ k = c := fun hk => hck hk.symm
        simp [insertCache, hpk, lookupCache_cons, hkc, hck]
    · by_cases hpc : p.1 = c
      · have hck : ¬ c = k := fun h => hpk (hpc.trans h)
        simp [insertCache, hpk, lookupCache_cons, hpc, hck]
      · simp [insertCache, hpk, lookupCache_cons, hpc, ih]

/-- C4 counterexample: with an empty cache and a resource whose
`TemplateVersion` computation fails, `Get` returns an empty map and **no
error** — the cache lookup short-circuits before the version computations, so
the failure is not propagated, contrary to the claim's unconditional
error-propagation clause. -/
theorem get_no_error_without_cached_record :
    VersionManagerGet "fdeploy" [] failingResource = .ok [] := rfl

/-- C4 (amended): `Get` returns an empty map and no error when no cached
record exists (even if the version computations would fail); when a record
exists, a failing `TemplateVersion`/`OverrideVersion` computation is
propagated as an error, and a record whose template or override version
differs from the resource's current one yields an empty map. -/
theorem get_error_and_empty_map_semantics
    (targetKind : String) (versions : VersionCache) (R : VersionedResource) :
    (lookupCache versions (versionQualifiedName targetKind R.federatedName).render = none →
       VersionManagerGet targetKind versions R = .ok []) ∧
    (∀ status,
       lookupCache versions (versionQualifiedName targetKind R.federatedName).render =
         some status →
       (∀ e, R.templateVersion = .error e →
          VersionManagerGet targetKind versions R =
            .error ("Failed to determine template version: " ++ e)) ∧
       (∀ tv e, R.templateVersion = .ok tv → R.overrideVersion = .error e →
          VersionManagerGet targetKind versions R =
            .error ("Failed to determine override version: " ++ e)) ∧
       (∀ tv ov, R.templateVersion = .ok tv → R.overrideVersion = .ok ov →
          (tv ≠ status.templateVersion ∨ ov ≠ status.overrideVersion) →
          VersionManagerGet targetKind versions R = .ok [])) := by
  refine ⟨fun hnone => ?_, fun status hsome => ⟨fun e he => ?_, fun tv e ht ho => ?_,
    fun tv ov ht ho hne => ?_⟩⟩
  · rw [VersionManagerGet, hnone]
  · rw [VersionManagerGet, hsome, he]
  · rw [VersionManagerGet, hsome, ht, ho]
  · rw [VersionManagerGet, hsome, ht, ho]
    have hcond : ¬ (tv = status.templateVersion ∧ ov = status.overrideVersion) := by
      intro hand
      rcases hne with hne | hne
      · exact hne hand.1
      · exact hne hand.2
    simp only [if_neg hcond]

/-- C4 witness: the amended theorem applied at a concrete cache and resource. -/
theorem get_error_and_empty_map_semantics_witness :
    VersionManagerGet "fdeploy"
      [("ns/fdeploy-app",
        { templateVersion := "t1", overrideVersion := "o1", clusterVersions := [] })]
      failingResource = .error ("Failed to determine template version: " ++ "boom") :=
  ((get_error_and_empty_map_semantics "fdeploy"
      [("ns/fdeploy-app",
        { templateVersion := "t1", overrideVersion := "o1", clusterVersions := [] })]
      failingResource).2
    { templateVersion := "t1", overrideVersion := "o1", clusterVersions := [] } rfl).1
    "boom" rfl

/-! ## Claim C5 — durable-write error classification -/
/-- C5: within one `writeVersion` invocation: a conflict on update marks the
token for refresh and retries, and the retried iteration refreshes the token
from the API and attempts the update with the refreshed token; a not-found on
update clears the token and the retried iteration takes the create path; an
already-exists on create marks the token for refresh and retries; a forbidden
error on create or on update aborts the poll loop immediately and surfaces the
error, with no further retries. -/
theorem writeVersion_error_classification (rv rv2 : String) (hne : rv ≠ "")
    (env env2 : StepEnv) (rest : List StepEnv) :
    (env.updateResult = .error .conflict →
       writeVersionStep env { resourceVersion := rv, refreshVersion := false } =
         (.retry { resourceVersion := rv, refreshVersion := true }, [.updateCall rv]) ∧
       (env2.refreshResult = .ok rv2 → rv2 ≠ "" →
          (writeVersionStep env2 { resourceVersion := rv, refreshVersion := true }).2 =
            [.refreshCall, .updateCall rv2])) ∧
    (env.updateResult = .error .notFound →
       writeVersionStep env { resourceVersion := rv, refreshVersion := false } =
         (.retry { resourceVersion := "", refreshVersion := false }, [.updateCall rv]) ∧
       (writeVersionStep env2 { resourceVersion := "", refreshVersion := false }).2.head? =
         some .createCall) ∧
    (env.createResult = .error .alreadyExists →
       writeVersionStep env { resourceVersion := "", refreshVersion := false } =
         (.retry { resourceVersion := "", refreshVersion := true }, [.createCall])) ∧
    (env.createResult = .error .forbidden →
       writeVersionLoop (env :: rest) { resourceVersion := "", refreshVersion := false } =
         (.error (some .forbidden), [.createCall])) ∧
    (env.updateResult = .error .forbidden →
       writeVersionLoop (env :: rest) { resourceVersion := rv, refreshVersion := false } =
         (.error (some .forbidden), [.updateCall rv])) := by
  refine ⟨fun hc => ⟨?_, fun hr hne2 => ?_⟩, fun hn => ⟨?_, ?_⟩, fun ha => ?_,
    fun hf => ?_, fun hf => ?_⟩
  · rw [writeVersionStep]
    simp only [if_neg (by simp : ¬ (false = true))]
    rw [writeVersionCreatePhase]
    simp only [if_neg hne]
    rw [writeVersionUpdatePhase, hc]
    rfl
  · have hstep : writeVersionStep env2 { resourceVersion := rv, refreshVersion := true } =
        writeVersionCreatePhase env2 { resourceVersion := rv2, refreshVersion := false }
          [Attempt.refreshCall] := by
      rw [writeVersionStep, hr]
      rfl
    rw [hstep]
    simp only [writeVersionCreatePhase]
    rw [if_neg hne2, writeVersionUpdatePhase]
    cases env2.updateResult with
    | ok u => rfl
    | error e => cases e <;> rfl
  · rw [writeVersionStep]
    simp only [if_neg (by simp : ¬ (false = true))]
    rw [writeVersionCreatePhase]
    simp only [if_neg hne]
    rw [writeVersionUpdatePhase, hn]
    rfl
  · obtain ⟨e2r, e2c, e2u⟩ := env2
    cases e2c with
    | error e => cases e <;> rfl
    | ok u =>
      cases e2u with
      | ok w => rfl
      | error e2 => cases e2 <;> rfl
  · rw [writeVersionStep]
    simp only [if_neg (by simp : ¬ (false = true))]
    rw [writeVersionCreatePhase]
    simp only [if_pos rfl, ha]
    rfl
  · rw [writeVersionLoop, writeVersionStep]
    simp only [if_neg (by simp : ¬ (false = true))]
    rw [writeVersionCreatePhase]
    simp only [if_pos rfl, hf]
    rfl
  · rw [writeVersionLoop, writeVersionStep]
    simp only [if_neg (by simp : ¬ (false = true))]
    rw [writeVersionCreatePhase]
    simp only [if_neg hne]
    rw [writeVersionUpdatePhase, hf]
    rfl

/-- C5 witness: the classification theorem applied to concrete oracles. -/
theorem writeVersion_error_classification_witness :
    ("1" : String) ≠ "" ∧
    writeVersionStep envConflict { resourceVersion := "1", refreshVersion := false } =
      (.retry { resourceVersion := "1", refreshVersion := true }, [.updateCall "1"]) ∧
    (writeVersionStep envConflict { resourceVersion := "1", refreshVersion := true }).2 =
      [.refreshCall, .updateCall "2"] ∧
    writeVersionStep envNotFound { resourceVersion := "1", refreshVersion := false } =
      (.retry { resourceVersion := "", refreshVersion := false }, [.updateCall "1"]) ∧
    writeVersionStep envAlreadyExists { resourceVersion := "", refreshVersion := false } =
      (.retry { resourceVersion := "", refreshVersion := true }, [.createCall]) ∧
    writeVersionLoop [envForbiddenCreate] { resourceVersion := "", refreshVersion := false } =
      (.error (some .forbidden), [.createCall]) ∧
    writeVersionLoop [envForbiddenUpdate] { resourceVersion := "1", refreshVersion := false } =
      (.error (some .forbidden), [.updateCall "1"]) := by
  have hne : ("1" : String) ≠ "" := by decide
  refine ⟨hne, ?_, ?_, ?_, ?_, ?_, ?_⟩
  · exact ((writeVersion_error_classification "1" "2" hne envConflict envConflict []).1 rfl).1
  · exact ((writeVersion_error_classification "1" "2" hne envConflict envConflict []).1 rfl).2
      rfl (by decide)
  · exact ((writeVersion_error_classification "1" "2" hne envNotFound envNotFound []).2.1 rfl).1
  · exact (writeVersion_error_classification "1" "2" hne envAlreadyExists envAlreadyExists
      []).2.2.1 rfl
  · exact (writeVersion_error_classification "1" "2" hne envForbiddenCreate envForbiddenCreate
      []).2.2.2.1 rfl
  · exact (writeVersion_error_classification "1" "2" hne envForbiddenUpdate envForbiddenUpdate
      []).2.2.2.2 rfl

/-! ## Claim C1 — round trip of the Version Manager -/
/-- C1: from an empty cache, `Get(R)` after `Update(R, clusters, V)` returns
exactly V restricted to the clusters with non-empty version strings (a cluster
mapped to `""` has no entry), and for a resource with the same federated name
whose template version has changed, `Get` returns the empty map. -/
theorem get_after_update_roundtrip
    (targetKind : String) (R : VersionedResource) (sel : List String) (V : VersionMap)
    (tv ov : String)
    (ht : R.templateVersion = .ok tv) (ho : R.overrideVersion = .ok ov)
    (hkeys : (V.map Prod.fst).Nodup)
    (u : UpdateResult) (hu : VersionManagerUpdate targetKind [] R sel V = .ok u) :
    (∃ g, VersionManagerGet targetKind u.versions R = .ok g ∧
       ∀ c, lookupVM g c = dropEmpty (lookupVM V c)) ∧
    (∀ R2 : VersionedResource, ∀ tv2 ov2 : String,
       R2.federatedName = R.federatedName → R2.templateVersion = .ok tv2 →
       R2.overrideVersion = .ok ov2 → tv2 ≠ tv →
       VersionManagerGet targetKind u.versions R2 = .ok []) := by
  rw [VersionManagerUpdate, ht, ho] at hu
  have hu2 : ({ versions :=
                  insertCache [] (versionQualifiedName targetKind R.federatedName).render
                    { templateVersion := tv, overrideVersion := ov,
                      clusterVersions := VersionMapToClusterVersions V },
                wrote := true, versionMapAfter := V } : UpdateResult) = u := Except.ok.inj hu
  subst hu2
  have hlook : lookupCache
      (insertCache [] (versionQualifiedName targetKind R.federatedName).render
        { templateVersion := tv, overrideVersion := ov,
          clusterVersions := VersionMapToClusterVersions V })
      (versionQualifiedName targetKind R.federatedName).render =
      some { templateVersion := tv, overrideVersion := ov,
             clusterVersions := VersionMapToClusterVersions V } := by
    rw [lookupCache_insertCache]
    simp
  constructor
  · refine ⟨(VersionMapToClusterVersions V).foldl
      (fun m cv => insertVM m cv.clusterName cv.version) [], ?_, ?_⟩
    · simp only [VersionManagerGet]
      rw [hlook, ht, ho]
      simp
    · intro c
      rw [lookupVM_foldl_insertVM _ _ (versionMapToClusterVersions_names_nodup V hkeys) c,
        lookupVM_nil, lookupCV_versionMapToClusterVersions V hkeys c]
      cases dropEmpty (lookupVM V c) <;> rfl
  · intro R2 tv2 ov2 hname ht2 ho2 hne
    simp only [VersionManagerGet, hname]
    rw [hlook, ht2, ho2]
    simp [hne]

/-- C1 witness: the round-trip theorem at a concrete resource and a version map
containing an empty-string version for cluster c2. -/
theorem get_after_update_roundtrip_witness :
    sampleResource.templateVersion = .ok "t1" ∧
    (∃ g, VersionManagerGet "fdeploy"
        [("ns/fdeploy-app",
          { templateVersion := "t1", overrideVersion := "o1",
            clusterVersions := [{ clusterName := "c1", version := "v1" },
                                { clusterName := "c3", version := "v3" }] })]
        sampleResource = .ok g ∧
      ∀ c, lookupVM g c = dropEmpty (lookupVM [("c1", "v1"), ("c2", ""), ("c3", "v3")] c)) := by
  constructor
  · rfl
  · exact (get_after_update_roundtrip "fdeploy" sampleResource
      ["c1", "c2", "c3"] [("c1", "v1"), ("c2", ""), ("c3", "v3")] "t1" "o1"
      rfl rfl (by decide) _ rfl).1

/-! ## Claims C2, C9, C10 — the merge law of `Update` -/
theorem lookupVM_value_mem {m : VersionMap} {c v : String} (h : lookupVM m c = some v) :
    ∃ p ∈ m, p.2 = v := by
  unfold lookupVM at h
  cases e : m.find? (fun p => p.1 == c) with
  | none => rw [e] at h; simp at h
  | some p =>
    rw [e] at h
    exact ⟨p, List.mem_of_find?_eq_some e, by injection h⟩

theorem lookupCV_value_mem {l : List ClusterObjectVersion} {c v : String}
    (h : lookupCV l c = some v) : ∃ cv ∈ l, cv.version = v := by
  unfold lookupCV at h
  cases e : l.find? (fun cv => cv.clusterName == c) with
  | none => rw [e] at h; simp at h
  | some cv =>
    rw [e] at h
    exact ⟨cv, List.mem_of_find?_eq_some e, by injection h⟩

theorem propagatedVersionStatusEquivalent_eq {a b : PropagatedVersionStatus}
    (h : PropagatedVersionStatusEquivalent a b = true) : a = b := by
  cases a
  cases b
  simp only [PropagatedVersionStatusEquivalent, Bool.and_eq_true, beq_iff_eq] at h
  simp_all

theorem dropEmpty_merge_of_nonempty (oldCV : List ClusterObjectVersion) (V : VersionMap)
    (sel : List String)
    (hvne : ∀ p ∈ V, p.2 ≠ "") (hone : ∀ cv ∈ oldCV, cv.version ≠ "") (c : String) :
    dropEmpty (lookupVM (mergeOldVersions oldCV V sel) c) =
      (lookupVM V c).or (if sel.contains c then lookupCV oldCV c else none) := by
  rw [lookupVM_mergeOldVersions]
  cases hV : lookupVM V c with
  | some v =>
    have hvne2 : v ≠ "" := by
      rcases lookupVM_value_mem hV with ⟨p, hp, hpv⟩
      rw [← hpv]
      exact hvne p hp
    simp [dropEmpty, hvne2]
  | none =>
    cases hsel : sel.contains c with
    | false => rfl
    | true =>
      cases hold : lookupCV oldCV c with
      | none => rfl
      | some w =>
        have hwne : w ≠ "" := by
          rcases lookupCV_value_mem hold with ⟨cv, hcv, hcvv⟩
          rw [← hcvv]
          exact hone cv hcv
        simp [dropEmpty, hwne]

/-- C2: when a cached record exists whose template and override versions match
the resource's current ones, `Update` stores cluster versions that are exactly
the union of the new version map with the old record's entries for selected
clusters absent from the new map (old entries for unselected clusters are
dropped).  Versions are assumed non-empty; the empty-string deletion rule is
claim C1's. -/
theorem update_merge_law
    (targetKind : String) (R : VersionedResource) (sel : List String) (V : VersionMap)
    (tv ov : String) (cache : VersionCache) (oldStatus : PropagatedVersionStatus)
    (ht : R.templateVersion = .ok tv) (ho : R.overrideVersion = .ok ov)
    (hcache : lookupCache cache (versionQualifiedName targetKind R.federatedName).render =
      some oldStatus)
    (hmatch : oldStatus.templateVersion = tv) (homatch : oldStatus.overrideVersion = ov)
    (hkeys : (V.map Prod.fst).Nodup)
    (hvne : ∀ p ∈ V, p.2 ≠ "")
    (hone : ∀ cv ∈ oldStatus.clusterVersions, cv.version ≠ "")
    (u : UpdateResult) (hu : VersionManagerUpdate targetKind cache R sel V = .ok u) :
    ∃ stored, lookupCache u.versions
        (versionQualifiedName targetKind R.federatedName).render = some stored ∧
      ∀ c, lookupCV stored.clusterVersions c =
        (lookupVM V c).or
          (if sel.contains c then lookupCV oldStatus.clusterVersions c else none) := by
  simp [VersionManagerUpdate, ht, ho, hcache, hmatch, homatch] at hu
  split at hu
  case isTrue heq =>
    have hval := Except.ok.inj hu
    subst hval
    have hOS := propagatedVersionStatusEquivalent_eq heq
    have hcv : oldStatus.clusterVersions =
        VersionMapToClusterVersions (mergeOldVersions oldStatus.clusterVersions V sel) :=
      congrArg PropagatedVersionStatus.clusterVersions hOS
    refine ⟨oldStatus, hcache, fun c => ?_⟩
    conv_lhs => rw [hcv]
    rw [lookupCV_versionMapToClusterVersions _ (mergeOldVersions_keys_nodup _ _ _ hkeys) c]
    exact dropEmpty_merge_of_nonempty _ _ _ hvne hone c
  case isFalse heq =>
    have hval := Except.ok.inj hu
    subst hval
    refine ⟨{ templateVersion := tv, overrideVersion := ov,
              clusterVersions :=
                VersionMapToClusterVersions (mergeOldVersions oldStatus.clusterVersions V sel) },
      ?_, fun c => ?_⟩
    · show lookupCache (insertCache cache
        (versionQualifiedName targetKind R.federatedName).render
        { templateVersion := tv, overrideVersion := ov,
          clusterVersions :=
            VersionMapToClusterVersions (mergeOldVersions oldStatus.clusterVersions V sel) })
        (versionQualifiedName targetKind R.federatedName).render =
        some { templateVersion := tv, overrideVersion := ov,
               clusterVersions :=
                 VersionMapToClusterVersions (mergeOldVersions oldStatus.clusterVersions V sel) }
      rw [lookupCache_insertCache]
      simp
    · show lookupCV (VersionMapToClusterVersions
        (mergeOldVersions oldStatus.clusterVersions V sel)) c = _
      rw [lookupCV_versionMapToClusterVersions _ (mergeOldVersions_keys_nodup _ _ _ hkeys) c]
      exact dropEmpty_merge_of_nonempty _ _ _ hvne hone c

/-- C2 witness: the spec's own example — prior state c1↦v1, c2↦v1,
`Update(R, [c1,c2], [c1↦v2])` — via the merge-law theorem. -/
theorem update_merge_law_witness :
    ∃ stored, lookupCache
        (VersionManagerUpdate "fdeploy" [("ns/fdeploy-app", oldStatusSample)]
            sampleResource ["c1", "c2"] [("c1", "v2")] |>.toOption.map
          UpdateResult.versions |>.getD [])
        "ns/fdeploy-app" = some stored ∧
      ∀ c, lookupCV stored.clusterVersions c =
        (lookupVM [("c1", "v2")] c).or
          (if ["c1", "c2"].contains c then lookupCV oldStatusSample.clusterVersions c
           else none) := by
  have h := update_merge_law "fdeploy" sampleResource ["c1", "c2"] [("c1", "v2")]
    "t1" "o1" [("ns/fdeploy-app", oldStatusSample)] oldStatusSample
    rfl rfl rfl rfl rfl (by decide) (by decide) (by decide)
    { versions := [("ns/fdeploy-app",
        { templateVersion := "t1", overrideVersion := "o1",
          clusterVersions := [{ clusterName := "c1", version := "v2" },
                              { clusterName := "c2", version := "v1" }] })],
      wrote := true,
      versionMapAfter := [("c1", "v2"), ("c2", "v1")] } rfl
  exact h

/-- C9: when a cached record exists but its template or override version
differs from the resource's current one, every old cluster version is
discarded before the merge: the stored record's cluster versions are exactly
the non-empty entries of the new version map, even for selected clusters that
previously had known versions. -/
theorem update_discards_stale_versions
    (targetKind : String) (R : VersionedResource) (sel : List String) (V : VersionMap)
    (tv ov : String) (cache : VersionCache) (oldStatus : PropagatedVersionStatus)
    (ht : R.templateVersion = .ok tv) (ho : R.overrideVersion = .ok ov)
    (hcache : lookupCache cache (versionQualifiedName targetKind R.federatedName).render =
      some oldStatus)
    (hstale : ¬ (oldStatus.templateVersion = tv ∧ oldStatus.overrideVersion = ov))
    (hkeys : (V.map Prod.fst).Nodup)
    (u : UpdateResult) (hu : VersionManagerUpdate targetKind cache R sel V = .ok u) :
    ∃ stored, lookupCache u.versions
        (versionQualifiedName targetKind R.federatedName).render = some stored ∧
      ∀ c, lookupCV stored.clusterVersions c = dropEmpty (lookupVM V c) := by
  simp only [VersionManagerUpdate, ht, ho, hcache] at hu
  rw [if_neg hstale] at hu
  have hmerge : mergeOldVersions [] V sel = V := rfl
  rw [hmerge] at hu
  split at hu
  case isTrue heq =>
    have hval := Except.ok.inj hu
    subst hval
    have hOS := propagatedVersionStatusEquivalent_eq heq
    have hcv : oldStatus.clusterVersions = VersionMapToClusterVersions V :=
      congrArg PropagatedVersionStatus.clusterVersions hOS
    refine ⟨oldStatus, hcache, fun c => ?_⟩
    rw [hcv, lookupCV_versionMapToClusterVersions V hkeys c]
  case isFalse heq =>
    have hval := Except.ok.inj hu
    subst hval
    refine ⟨{ templateVersion := tv, overrideVersion := ov,
              clusterVersions := VersionMapToClusterVersions V },
      ?_, fun c => ?_⟩
    · show lookupCache (insertCache cache
        (versionQualifiedName targetKind R.federatedName).render
        { templateVersion := tv, overrideVersion := ov,
          clusterVersions := VersionMapToClusterVersions V })
        (versionQualifiedName targetKind R.federatedName).render =
        some { templateVersion := tv, overrideVersion := ov,
               clusterVersions := VersionMapToClusterVersions V }
      rw [lookupCache_insertCache]
      simp
    · show lookupCV (VersionMapToClusterVersions V) c = _
      rw [lookupCV_versionMapToClusterVersions V hkeys c]

/-- C9 witness: a record with a stale template version t0 and a selected
cluster c2 that previously had a known version — the stored record keeps only
the new map's entries. -/
theorem update_discards_stale_versions_witness :
    ∃ stored, lookupCache
        (VersionManagerUpdate "fdeploy"
            [("ns/fdeploy-app", { templateVersion := "t0", overrideVersion := "o1",
                                  clusterVersions := oldStatusSample.clusterVersions })]
            sampleResource ["c1", "c2"] [("c1", "v2")] |>.toOption.map
          UpdateResult.versions |>.getD [])
        "ns/fdeploy-app" = some stored ∧
      ∀ c, lookupCV stored.clusterVersions c = dropEmpty (lookupVM [("c1", "v2")] c) := by
  have h := update_discards_stale_versions "fdeploy" sampleResource ["c1", "c2"]
    [("c1", "v2")] "t1" "o1"
    [("ns/fdeploy-app", { templateVersion := "t0", overrideVersion := "o1",
                          clusterVersions := oldStatusSample.clusterVersions })]
    { templateVersion := "t0", overrideVersion := "o1",
      clusterVersions := oldStatusSample.clusterVersions }
    rfl rfl rfl (by decide) (by decide)
    { versions := [("ns/fdeploy-app",
        { templateVersion := "t1", overrideVersion := "o1",
          clusterVersions := [{ clusterName := "c1", version := "v2" }] })],
      wrote := true,
      versionMapAfter := [("c1", "v2")] } rfl
  exact h

/-- C10: `Update` mutates the caller-supplied version map — when the cached
record's versions match, a selected cluster with a known old version but no
entry in the caller's map gains that old version in the map the merge loop
leaves behind. -/
theorem update_mutates_caller_map
    (targetKind : String) (R : VersionedResource) (sel : List String) (V : VersionMap)
    (tv ov : String) (cache : VersionCache) (oldStatus : PropagatedVersionStatus)
    (ht : R.templateVersion = .ok tv) (ho : R.overrideVersion = .ok ov)
    (hcache : lookupCache cache (versionQualifiedName targetKind R.federatedName).render =
      some oldStatus)
    (hmatch : oldStatus.templateVersion = tv) (homatch : oldStatus.overrideVersion = ov)
    (c w : String) (hcsel : sel.contains c = true)
    (hold : lookupCV oldStatus.clusterVersions c = some w)
    (habsent : lookupVM V c = none)
    (u : UpdateResult) (hu : VersionManagerUpdate targetKind cache R sel V = .ok u) :
    lookupVM u.versionMapAfter c = some w := by
  simp [VersionManagerUpdate, ht, ho, hcache, hmatch, homatch] at hu
  split at hu <;>
  · have hval := Except.ok.inj hu
    subst hval
    show lookupVM (mergeOldVersions oldStatus.clusterVersions V sel) c = some w
    rw [lookupVM_mergeOldVersions, habsent, hcsel, hold]
    rfl

/-- C10 witness: after the merge-law example, the caller's map [c1↦v2] has
gained the entry c2↦v1 it never contained. -/
theorem update_mutates_caller_map_witness :
    lookupVM [("c1", "v2")] "c2" = none ∧
    lookupVM
      (VersionManagerUpdate "fdeploy" [("ns/fdeploy-app", oldStatusSample)]
          sampleResource ["c1", "c2"] [("c1", "v2")] |>.toOption.map
        UpdateResult.versionMapAfter |>.getD []) "c2" = some "v1" := by
  constructor
  · rfl
  · exact update_mutates_caller_map "fdeploy" sampleResource ["c1", "c2"] [("c1", "v2")]
      "t1" "o1" [("ns/fdeploy-app", oldStatusSample)] oldStatusSample
      rfl rfl rfl rfl rfl "c2" "v1" (by decide) rfl rfl
      { versions := [("ns/fdeploy-app",
          { templateVersion := "t1", overrideVersion := "o1",
            clusterVersions := [{ clusterName := "c1", version := "v2" },
                                { clusterName := "c2", version := "v1" }] })],
        wrote := true,
        versionMapAfter := [("c1", "v2"), ("c2", "v1")] } rfl

/-! ## Claim C8 — per-cluster status list construction -/
theorem clusterStatusesLoop_ok (lookup : String → ClusterLookup) (names : List String)
    (hok : ∀ c ∈ names, lookup c ≠ .storeError) :
    clusterStatusesLoop lookup names =
      .ok (names.map (fun c => clusterEntry c (lookup c))) := by
  induction names with
  | nil => rfl
  | cons c rest ih =>
    simp only [clusterStatusesLoop, List.map_cons]
    rw [if_neg (hok c (List.mem_cons_self c rest)),
      ih (fun x hx => hok x (List.mem_cons_of_mem c hx))]

theorem clusterStatusesLoop_error (lookup : String → ClusterLookup) (names : List String)
    (h : ∃ c ∈ names, lookup c = .storeError) :
    ∃ e, clusterStatusesLoop lookup names = .error e := by
  induction names with
  | nil =>
    rcases h with ⟨c, hc, _⟩
    simp at hc
  | cons c rest ih =>
    by_cases hc : lookup c = .storeError
    · refine ⟨"Failed to get target resource from cluster " ++ c, ?_⟩
      simp only [clusterStatusesLoop]
      rw [if_pos hc]
    · rcases h with ⟨d, hd, hde⟩
      rcases List.mem_cons.mp hd with heq | hdrest
      · exact absurd (heq ▸ hde) hc
      · rcases ih ⟨d, hdrest, hde⟩ with ⟨e, he⟩
        refine ⟨e, ?_⟩
        simp only [clusterStatusesLoop]
        rw [if_neg hc, he]

/-- C8: with no store error among the ready clusters, `clusterStatuses`
returns one entry per ready cluster — a permutation of the per-cluster entry
list, absent objects and failed extractions contributing a nil status — sorted
ascending by cluster name; a store error on any cluster aborts the whole
computation with an error. -/
theorem clusterStatuses_spec (lookup : String → ClusterLookup) (clusterNames : List String) :
    ((∀ c ∈ clusterNames, lookup c ≠ .storeError) →
       ∃ l, clusterStatuses lookup clusterNames = .ok l ∧
         l.Perm (clusterNames.map (fun c => clusterEntry c (lookup c))) ∧
         l.Pairwise (fun a b => strLe a.clusterName b.clusterName = true)) ∧
    (∀ c, (lookup c = .absent ∨ lookup c = .statusMissing) →
       clusterEntry c (lookup c) = { clusterName := c, status := none }) ∧
    ((∃ c ∈ clusterNames, lookup c = .storeError) →
       ∃ e, clusterStatuses lookup clusterNames = .error e) := by
  refine ⟨fun hok => ?_, fun c hc => ?_, fun herr => ?_⟩
  · rw [clusterStatuses, clusterStatusesLoop_ok lookup clusterNames hok]
    refine ⟨_, rfl, List.perm_insertionSort _ _, ?_⟩
    haveI hTot : IsTotal ResourceClusterStatus
        (fun a b => strLe a.clusterName b.clusterName = true) :=
      ⟨fun a b => strLe_total _ _⟩
    haveI hTrans : IsTrans ResourceClusterStatus
        (fun a b => strLe a.clusterName b.clusterName = true) :=
      ⟨fun a b c h1 h2 => strLe_trans h1 h2⟩
    exact List.sorted_insertionSort _ _
  · rcases hc with hc | hc <;> rw [hc] <;> rfl
  · rcases clusterStatusesLoop_error lookup clusterNames herr with ⟨e, he⟩
    refine ⟨e, ?_⟩
    rw [clusterStatuses, he]

/-- C8 witness: input order [c3,c1,c2] yields entries sorted [c1,c2,c3], the
absent and extraction-failed clusters contributing nil statuses, and a store
error aborts with an error. -/
theorem clusterStatuses_spec_witness :
    clusterStatuses lookupSample ["c3", "c1", "c2"] =
      .ok [{ clusterName := "c1", status := some [("phase", "Running")] },
           { clusterName := "c2", status := none },
           { clusterName := "c3", status := none }] ∧
    (∃ l, clusterStatuses lookupSample ["c3", "c1", "c2"] = .ok l ∧
       l.Perm (["c3", "c1", "c2"].map (fun c => clusterEntry c (lookupSample c))) ∧
       l.Pairwise (fun a b => strLe a.clusterName b.clusterName = true)) ∧
    (∃ e, clusterStatuses lookupErrSample ["c1", "c2"] = .error e) := by
  refine ⟨rfl, ?_, ?_⟩
  · exact (clusterStatuses_spec lookupSample ["c3", "c1", "c2"]).1 (by decide)
  · exact (clusterStatuses_spec lookupErrSample ["c1", "c2"]).2.2
      ⟨"c2", by decide, by decide⟩

/-- C6 counterexample: when the bounded sync wait fails, `reconcile` does not
return any of the four reconciliation statuses — it reaches `klog.Fatalf`,
which terminates the process, contrary to the claim that a sync-wait failure
is fatal to the invocation only. -/
theorem reconcile_sync_failure_terminates_process :
    (reconcile envSyncFail { nspace := "ns", name := "app" }).1 = .processFatal ∧
    ((reconcile envSyncFail { nspace := "ns", name := "app" }).1).returnsStatus = false :=
  ⟨rfl, rfl⟩

/-- C6 (amended): a failure of the initial bounded sync wait terminates the
process via `klog.Fatalf`; whenever the wait succeeds, the reconcile entry
point returns one of the four reconciliation statuses for every input key. -/
theorem reconcile_returns_status_when_synced (env : ReconcileEnv) (qn : QualifiedName)
    (h : env.syncSucceeds = true) :
    ((reconcile env qn).1).returnsStatus = true := by
  rw [reconcile, h]
  rw [if_neg (fun hf => hf rfl)]
  cases env.fedLookup with
  | error e => rfl
  | ok fo =>
    cases fo with
    | none => rfl
    | some fed =>
      dsimp only
      cases hd : fed.deleting with
      | true => rfl
      | false =>
        cases env.clusterNamesResult with
        | error e => rfl
        | ok names =>
          dsimp only
          cases clusterStatuses env.targetLookup names with
          | error e => rfl
          | ok cs =>
            dsimp only
            cases env.statusLookup with
            | error e => rfl
            | ok ex =>
              dsimp only
              cases ex with
              | none => cases env.createFails <;> rfl
              | some existing =>
                dsimp only
                by_cases hcmp : existing.clusterStatus =
                  (mkCandidateStatus qn fed cs).clusterStatus
                · rw [if_pos hcmp]
                  rfl
                · rw [if_neg hcmp]
                  cases env.updateFails <;> rfl

/-- C6 witness: the amended theorem applied to a healthy concrete environment. -/
theorem reconcile_returns_status_when_synced_witness :
    ((reconcile envSyncOk { nspace := "ns", name := "app" }).1).returnsStatus = true :=
  reconcile_returns_status_when_synced envSyncOk { nspace := "ns", name := "app" } rfl

/-- C7: when a persisted status object exists, `reconcile` compares only the
cluster-status sub-field: if it equals the freshly computed one, no write is
attempted and the outcome is AllOK; if it differs, the single attempted write
is an update of the existing object with only the cluster-status sub-field
replaced (all other fields of the existing object preserved); and a second
reconcile whose status cache returns the just-written object attempts no
write. -/
theorem reconcile_status_write_minimality
    (env : ReconcileEnv) (qn : QualifiedName) (fed : FedObject)
    (names : List String) (cs : List ResourceClusterStatus) (existing : StatusObject)
    (hsync : env.syncSucceeds = true)
    (hfed : env.fedLookup = .ok (some fed)) (hdel : fed.deleting = false)
    (hnames : env.clusterNamesResult = .ok names)
    (hcs : clusterStatuses env.targetLookup names = .ok cs)
    (hexist : env.statusLookup = .ok (some existing)) :
    (existing.clusterStatus = some cs → reconcile env qn = (.status .allOK, [])) ∧
    (existing.clusterStatus ≠ some cs →
       (reconcile env qn).2 =
         [.update { clusterStatus := some cs, rest := existing.rest }]) ∧
    (reconcile
       { env with
         statusLookup := .ok (some { clusterStatus := some cs, rest := existing.rest }) }
       qn = (.status .allOK, [])) := by
  refine ⟨fun heq => ?_, fun hne => ?_, ?_⟩
  · rw [reconcile, hsync]
    rw [if_neg (fun hf => hf rfl), hfed]
    dsimp only
    rw [hdel, hnames]
    dsimp only
    rw [hcs]
    dsimp only
    rw [hexist]
    dsimp only [mkCandidateStatus]
    rw [if_pos heq]
    rfl
  · rw [reconcile, hsync]
    rw [if_neg (fun hf => hf rfl), hfed]
    dsimp only
    rw [hdel, hnames]
    dsimp only
    rw [hcs]
    dsimp only
    rw [hexist]
    dsimp only [mkCandidateStatus]
    rw [if_neg hne]
    cases env.updateFails <;> rfl
  · rw [reconcile]
    dsimp only
    rw [hsync]
    rw [if_neg (fun hf => hf rfl), hfed]
    dsimp only
    rw [hdel, hnames]
    dsimp only
    rw [hcs]
    dsimp only [mkCandidateStatus]
    rw [if_pos rfl]
    rfl

/-- C7 witness: the changed cluster status is written into the existing object
with the unrelated field preserved, and a second reconcile seeing the written
object performs no write. -/
theorem reconcile_status_write_minimality_witness :
    ((reconcile envReconcile { nspace := "ns", name := "app" }).2 =
       [.update writtenStatusSample]) ∧
    (reconcile { envReconcile with statusLookup := .ok (some writtenStatusSample) }
       { nspace := "ns", name := "app" } = (.status .allOK, [])) := by
  have h := reconcile_status_write_minimality envReconcile
    { nspace := "ns", name := "app" } fedSample ["c1"]
    [{ clusterName := "c1", status := some [("phase", "Running")] }] existingSample
    rfl rfl rfl rfl rfl rfl
  exact ⟨h.2.1 (by decide), h.2.2⟩

/-! ## Claim C3 — write avoidance and idempotence of `Update` -/
theorem charListLe_antisymm : ∀ as bs : List Char,
    charListLe as bs = true → charListLe bs as = true → as = bs
  | [], [], _, _ => rfl
  | [], _ :: _, _, h2 => by simp [charListLe] at h2
  | _ :: _, [], h1, _ => by simp [charListLe] at h1
  | a :: as, b :: bs, h1, h2 => by
    by_cases hab : a < b
    · simp [charListLe, hab, lt_asymm hab] at h2
    · by_cases hba : b < a
      · simp [charListLe, hab, hba] at h1
      · have hab2 : a = b := le_antisymm (not_lt.mp hba) (not_lt.mp hab)
        subst hab2
        simp [charListLe, lt_irrefl] at h1 h2
        rw [charListLe_antisymm as bs h1 h2]

theorem strLe_antisymm {a b : String} (h1 : strLe a b = true) (h2 : strLe b a = true) :
    a = b := by
  cases a with
  | mk da =>
    cases b with
    | mk db =>
      rw [charListLe_antisymm da db h1 h2]

theorem sortClusterVersions_pairwise (l : List ClusterObjectVersion) :
    (SortClusterVersions l).Pairwise
      (fun a b => strLe a.clusterName b.clusterName = true) := by
  haveI hTot : IsTotal ClusterObjectVersion
      (fun a b => strLe a.clusterName b.clusterName = true) :=
    ⟨fun a b => strLe_total _ _⟩
  haveI hTrans : IsTrans ClusterObjectVersion
      (fun a b => strLe a.clusterName b.clusterName = true) :=
    ⟨fun a b c h1 h2 => strLe_trans h1 h2⟩
  exact List.sorted_insertionSort _ _

theorem sorted_lookupCV_ext : ∀ l1 l2 : List ClusterObjectVersion,
    l1.Pairwise (fun a b => strLe a.clusterName b.clusterName = true) →
    l2.Pairwise (fun a b => strLe a.clusterName b.clusterName = true) →
    (l1.map ClusterObjectVersion.clusterName).Nodup →
    (l2.map ClusterObjectVersion.clusterName).Nodup →
    (∀ c, lookupCV l1 c = lookupCV l2 c) → l1 = l2
  | [], [], _, _, _, _, _ => rfl
  | [], b :: bs, _, _, _, _, hl => by
    have hb := hl b.clusterName
    rw [lookupCV_nil, lookupCV_cons, if_pos rfl] at hb
    exact absurd hb (by simp)
  | a :: as, [], _, _, _, _, hl => by
    have ha := hl a.clusterName
    rw [lookupCV_nil, lookupCV_cons, if_pos rfl] at ha
    exact absurd ha (by simp)
  | a :: as, b :: bs, hs1, hs2, hn1, hn2, hl => by
    have hmem_a : a ∈ b :: bs := by
      have h1 : lookupCV (b :: bs) a.clusterName = some a.version := by
        rw [← hl a.clusterName, lookupCV_cons, if_pos rfl]
      exact (lookupCV_eq_some_iff hn2).mp h1
    have hmem_b : b ∈ a :: as := by
      have h1 : lookupCV (a :: as) b.clusterName = some b.version := by
        rw [hl b.clusterName, lookupCV_cons, if_pos rfl]
      exact (lookupCV_eq_some_iff hn1).mp h1
    have hab : a = b := by
      rcases List.mem_cons.mp hmem_a with h | hmem_a2
      · exact h
      · rcases List.mem_cons.mp hmem_b with h | hmem_b2
        · exact h.symm
        · have h1 : strLe a.clusterName b.clusterName = true :=
            (List.pairwise_cons.mp hs1).1 b hmem_b2
          have h2 : strLe b.clusterName a.clusterName = true :=
            (List.pairwise_cons.mp hs2).1 a hmem_a2
          have heqn : a.clusterName = b.clusterName := strLe_antisymm h1 h2
          rw [List.map_cons] at hn2
          exact absurd (List.mem_map.mpr ⟨a, hmem_a2, heqn⟩)
            (List.nodup_cons.mp hn2).1
    subst hab
    have htl : ∀ c, lookupCV as c = lookupCV bs c := by
      intro c
      by_cases hc : a.clusterName = c
      · rw [List.map_cons] at hn1 hn2
        have hnone1 : lookupCV as c = none := by
          rw [lookupCV_eq_none_iff]
          intro cv hcv hcvc
          exact (List.nodup_cons.mp hn1).1
            (List.mem_map.mpr ⟨cv, hcv, hcvc.trans hc.symm⟩)
        have hnone2 : lookupCV bs c = none := by
          rw [lookupCV_eq_none_iff]
          intro cv hcv hcvc
          exact (List.nodup_cons.mp hn2).1
            (List.mem_map.mpr ⟨cv, hcv, hcvc.trans hc.symm⟩)
        rw [hnone1, hnone2]
      · have hcc := hl c
        rw [lookupCV_cons, lookupCV_cons, if_neg hc, if_neg hc] at hcc
        exact hcc
    rw [sorted_lookupCV_ext as bs (List.pairwise_cons.mp hs1).2 (List.pairwise_cons.mp hs2).2
      (by rw [List.map_cons] at hn1; exact (List.nodup_cons.mp hn1).2)
      (by rw [List.map_cons] at hn2; exact (List.nodup_cons.mp hn2).2) htl]

theorem dropEmpty_idem (o : Option String) : dropEmpty (dropEmpty o) = dropEmpty o := by
  cases o with
  | none => rfl
  | some v =>
    by_cases hv : v = ""
    · simp [dropEmpty, hv]
    · simp [dropEmpty, hv]

theorem vmtcv_merge_stable (M V : VersionMap) (sel : List String)
    (Z : String → Option String)
    (hM : ∀ c, lookupVM M c = (lookupVM V c).or (if sel.contains c then Z c else none))
    (hVk : (V.map Prod.fst).Nodup) (hMk : (M.map Prod.fst).Nodup) :
    VersionMapToClusterVersions
        (mergeOldVersions (VersionMapToClusterVersions M) V sel) =
      VersionMapToClusterVersions M := by
  apply sorted_lookupCV_ext
  · exact sortClusterVersions_pairwise _
  · exact sortClusterVersions_pairwise _
  · exact versionMapToClusterVersions_names_nodup _ (mergeOldVersions_keys_nodup _ _ _ hVk)
  · exact versionMapToClusterVersions_names_nodup _ hMk
  · intro c
    rw [lookupCV_versionMapToClusterVersions _ (mergeOldVersions_keys_nodup _ _ _ hVk) c,
      lookupCV_versionMapToClusterVersions _ hMk c, lookupVM_mergeOldVersions,
      lookupCV_versionMapToClusterVersions _ hMk c, hM c]
    cases hV : lookupVM V c with
    | some v => rfl
    | none =>
      cases hsel : sel.contains c with
      | false => rfl
      | true =>
        show dropEmpty (dropEmpty (Z c)) = dropEmpty (Z c)
        exact dropEmpty_idem (Z c)

theorem propagatedVersionStatusEquivalent_self (a : PropagatedVersionStatus) :
    PropagatedVersionStatusEquivalent a a = true := by
  simp [PropagatedVersionStatusEquivalent]

theorem update_noop_of_stored (targetKind : String) (R : VersionedResource)
    (sel : List String) (V M : VersionMap) (tv ov : String)
    (ht : R.templateVersion = .ok tv) (ho : R.overrideVersion = .ok ov)
    (cache2 : VersionCache)
    (hlook : lookupCache cache2 (versionQualifiedName targetKind R.federatedName).render =
      some { templateVersion := tv, overrideVersion := ov,
             clusterVersions := VersionMapToClusterVersions M })
    (Z : String → Option String)
    (hM : ∀ c, lookupVM M c = (lookupVM V c).or (if sel.contains c then Z c else none))
    (hVk : (V.map Prod.fst).Nodup) (hMk : (M.map Prod.fst).Nodup) :
    VersionManagerUpdate targetKind cache2 R sel V =
      .ok { versions := cache2, wrote := false,
            versionMapAfter :=
              mergeOldVersions (VersionMapToClusterVersions M) V sel } := by
  have hstable := vmtcv_merge_stable M V sel Z hM hVk hMk
  have hequiv : PropagatedVersionStatusEquivalent
      { templateVersion := tv, overrideVersion := ov,
        clusterVersions := VersionMapToClusterVersions M }
      { templateVersion := tv, overrideVersion := ov,
        clusterVersions := VersionMapToClusterVersions
          (mergeOldVersions (VersionMapToClusterVersions M) V sel) } = true := by
    rw [hstable]
    exact propagatedVersionStatusEquivalent_self _
  have hcond : tv = tv ∧ ov = ov := ⟨rfl, rfl⟩
  rw [VersionManagerUpdate, ht, ho]
  dsimp only
  rw [hlook]
  dsimp only
  rw [if_pos hcond]
  rw [if_pos hequiv]

/-- C3: `Update` is write-avoiding and idempotent — after any successful
`Update`, a second `Update` with identical arguments finds the merged status
value-equal to the stored one, returns without initiating a durable write, and
leaves the cache unchanged; so two identical calls perform at most the first
call's single durable write and the second performs zero. -/
theorem update_idempotent
    (targetKind : String) (R : VersionedResource) (sel : List String) (V : VersionMap)
    (tv ov : String)
    (ht : R.templateVersion = .ok tv) (ho : R.overrideVersion = .ok ov)
    (hkeys : (V.map Prod.fst).Nodup)
    (cache : VersionCache) (u : UpdateResult)
    (hu : VersionManagerUpdate targetKind cache R sel V = .ok u) :
    ∃ u2, VersionManagerUpdate targetKind u.versions R sel V = .ok u2 ∧
      u2.wrote = false ∧ u2.versions = u.versions := by
  have hMV : ∀ c, lookupVM V c =
      (lookupVM V c).or (if sel.contains c then (fun _ => (none : Option String)) c else none) := by
    intro c
    rw [ite_self]
    cases lookupVM V c <;> rfl
  simp only [VersionManagerUpdate, ht, ho] at hu
  cases hcache : lookupCache cache (versionQualifiedName targetKind R.federatedName).render with
  | none =>
    rw [hcache] at hu
    have hval := Except.ok.inj hu
    subst hval
    exact ⟨_, update_noop_of_stored targetKind R sel V V tv ov ht ho _
      (by rw [lookupCache_insertCache]; simp) (fun _ => none) hMV hkeys hkeys, rfl, rfl⟩
  | some oldStatus =>
    rw [hcache] at hu
    dsimp only at hu
    by_cases hm : oldStatus.templateVersion = tv ∧ oldStatus.overrideVersion = ov
    · rw [if_pos hm] at hu
      split at hu
      next heq =>
        have hval := Except.ok.inj hu
        subst hval
        have hOS := propagatedVersionStatusEquivalent_eq heq
        exact ⟨_, update_noop_of_stored targetKind R sel V
          (mergeOldVersions oldStatus.clusterVersions V sel) tv ov ht ho cache
          (hcache.trans (congrArg some hOS))
          (fun c => lookupCV oldStatus.clusterVersions c)
          (fun c => lookupVM_mergeOldVersions oldStatus.clusterVersions V sel c)
          hkeys (mergeOldVersions_keys_nodup _ _ _ hkeys), rfl, rfl⟩
      next heq =>
        have hval := Except.ok.inj hu
        subst hval
        exact ⟨_, update_noop_of_stored targetKind R sel V
          (mergeOldVersions oldStatus.clusterVersions V sel) tv ov ht ho _
          (by rw [lookupCache_insertCache]; simp)
          (fun c => lookupCV oldStatus.clusterVersions c)
          (fun c => lookupVM_mergeOldVersions oldStatus.clusterVersions V sel c)
          hkeys (mergeOldVersions_keys_nodup _ _ _ hkeys), rfl, rfl⟩
    · rw [if_neg hm] at hu
      split at hu
      next heq =>
        have hval := Except.ok.inj hu
        subst hval
        have hOS := propagatedVersionStatusEquivalent_eq heq
        exact ⟨_, update_noop_of_stored targetKind R sel V
          (mergeOldVersions [] V sel) tv ov ht ho cache
          (hcache.trans (congrArg some hOS)) (fun _ => none) hMV hkeys hkeys, rfl, rfl⟩
      next heq =>
        have hval := Except.ok.inj hu
        subst hval
        exact ⟨_, update_noop_of_stored targetKind R sel V
          (mergeOldVersions [] V sel) tv ov ht ho _
          (by rw [lookupCache_insertCache]; simp) (fun _ => none) hMV hkeys hkeys, rfl, rfl⟩

/-- C3 witness: from an empty cache the first `Update` performs a durable
write; the second identical call performs none and leaves the cache
unchanged. -/
theorem update_idempotent_witness :
    (VersionManagerUpdate "fdeploy" [] sampleResource ["c1"] [("c1", "v1")] =
       .ok { versions := storedAfterFirstUpdate, wrote := true,
             versionMapAfter := [("c1", "v1")] }) ∧
    (∃ u2, VersionManagerUpdate "fdeploy" storedAfterFirstUpdate
        sampleResource ["c1"] [("c1", "v1")] = .ok u2 ∧
      u2.wrote = false ∧ u2.versions = storedAfterFirstUpdate) := by
  refine ⟨rfl, ?_⟩
  exact update_idempotent "fdeploy" sampleResource ["c1"] [("c1", "v1")] "t1" "o1"
    rfl rfl (by decide) []
    { versions := storedAfterFirstUpdate, wrote := true,
      versionMapAfter := [("c1", "v1")] } rfl
